import Mathlib

/-!
# Verification of the `utils` HTTP client (`http_client.go`)

Shallow embedding of the fluent HTTP request builder with retry from the Go
source file `src/http_client.go`.  The file contains two near-identical
builder types, `Client` and `Rest`; both are embedded below.

Modelling conventions:

* Go `map[string][]string` (possibly `nil`) is modelled as
  `Option (List (String × List String))`, `none` being the `nil` map.
  Go maps have unique keys; assignment into a `nil` map panics, reading
  from a `nil` map yields the zero value.  Go slices are modelled as
  `List`; a `nil` slice and an empty slice are behaviorally identical
  under `append`/`range` and are both modelled as `[]`.
* `time.Duration` (an `int64` nanosecond count) is modelled as `Int`.
* Go panics are modelled by the `GoOutcome.panicked` constructor.
* `error` values are modelled as `String` (the error message);
  `github.com/pkg/errors.Wrap(err, msg)` produces the message
  `msg ++ ": " ++ err`.
* The standard-library calls `url.Parse` and `http.NewRequest` are
  external to the repository.  Both are deterministic in the builder's
  fields (`url`, resp. `method`/assembled URL/`body`), which are fixed
  during one `Send`, so their outcomes are supplied once by the
  environment `Env` and are the same on every recursive attempt,
  exactly as in the source.
* The transport collaborator (`http.Client.Do` plus the subsequent
  `ioutil.ReadAll`) is external; the environment supplies the outcome of
  the i-th transport call.
* `fmt.Sprintf("%v", value)` on an `interface{}` argument is modelled on
  a small universe `GoVal` of values with their Go `%v` renderings.
* The retry predicate `func(*Client, *Response, error) bool` receives the
  builder itself as its first argument; since the builder is never
  mutated during `send`, the predicate is embedded already applied to the
  builder, with type `Option Response → Option GoError → Bool`
  (`Option` for the nilable pointer/interface arguments), wrapped in an
  outer `Option` for the nilable function value.  Calling a `nil`
  function value panics.
-/

deriving instance DecidableEq for Except

namespace Utils

/-- Go error values, by their message. -/
abbrev GoError := String

/-- `errors.Wrap(err, label)`: the wrapped error's message. -/
def wrapErr (label : String) (e : GoError) : GoError := label ++ ": " ++ e

/-- The parsed URL.  `send` only ever sets its `RawQuery` and re-renders it
with `String()`, so the model keeps the pre-query rendering. -/
abbrev URL := String

/-- Go runtime panic message for a call of a `nil` function value. -/
def nilFuncPanic : String := "runtime error: invalid memory address or nil pointer dereference"

/-- Go runtime panic message for assignment into a `nil` map. -/
def nilMapPanic : String := "assignment to entry in nil map"

/-- Result of running Go code that may panic. -/
inductive GoOutcome (α : Type) where
  | done (val : α)
  | panicked (msg : String)
deriving DecidableEq, Repr

/-- Sequencing of Go steps: a panic aborts the rest. -/
def GoOutcome.bind {α β : Type} : GoOutcome α → (α → GoOutcome β) → GoOutcome β
  | .done a, f => f a
  | .panicked m, _ => .panicked m

/-- Values passed as Go `interface{}` arguments, with enough structure to
render `fmt.Sprintf("%v", ·)`. -/
inductive GoVal where
  | VNil
  | VStr (s : String)
  | VInt (i : Int)
  | VBool (b : Bool)
deriving DecidableEq, Repr

/-- `fmt.Sprintf("%v", value)`. -/
def sprintf : GoVal → String
  | .VNil => "<nil>"
  | .VStr s => s
  | .VInt i => toString i
  | .VBool b => if b then "true" else "false"

/-- A non-`nil` Go `map[string][]string`, as an association list with the
per-key value slices.  Go map iteration order is unspecified; every place
the embedded code iterates a map, the observable result is insensitive to
the order (values are grouped per key), so the list order stands in for it. -/
abbrev QMap := List (String × List String)

/-- Map read `m[name]` (zero value `[]` when absent). -/
def qmapGet : QMap → String → List String
  | [], _ => []
  | (k, vs) :: rest, name => if k = name then vs else qmapGet rest name

/-- Map assignment `m[name] = vs` on a non-`nil` map. -/
def qmapSet : QMap → String → List String → QMap
  | [], name, vs => [(name, vs)]
  | (k, ws) :: rest, name, vs =>
      if k = name then (name, vs) :: rest else (k, ws) :: qmapSet rest name vs

/-- `url.Values.Add` / `http.Header.Add` on a non-`nil` map:
`v[key] = append(v[key], value)`. -/
def qmapAppend (m : QMap) (name value : String) : QMap :=
  qmapSet m name (qmapGet m name ++ [value])

/-- A non-`nil` Go `map[string]string`. -/
abbrev PMap := List (String × String)

/-- Map assignment `m[name] = v` on a non-`nil` `map[string]string`. -/
def pmapSet : PMap → String → String → PMap
  | [], name, v => [(name, v)]
  | (k, w) :: rest, name, v =>
      if k = name then (name, v) :: rest else (k, w) :: pmapSet rest name v

/-- The `Response` struct (`src/http_client.go:30`). -/
structure Response where
  StatusCode : Int
  Header : QMap
  Body : String
deriving DecidableEq, Repr

/-- The retry predicate, already applied to the (unchanging) builder:
`func(request *Client, response *Response, err error) bool`. -/
abbrev RetryRule := Option Response → Option GoError → Bool

/-- The `Client` struct (`src/http_client.go:15`). -/
structure Client where
  method : String
  url : String
  timeout : Int
  retryAttempts : Int
  retryDelay : Int
  retryRuleF : Option RetryRule
  param : Option PMap
  query : Option QMap
  header : Option QMap
  form : Option QMap
  body : List Nat
  records : GoVal

/-- `NewRest` (`src/http_client.go:36`): fresh builder with 2s timeout, no
retries, empty (non-`nil`) maps, and zero values elsewhere. -/
def Client.NewRest (method : String) (url : String) : Client :=
  { method := method
    url := url
    timeout := 2000000000
    retryAttempts := 0
    retryDelay := 0
    retryRuleF := none
    param := some []
    query := some []
    header := some []
    form := some []
    body := []
    records := .VNil }

/-- The free function `add` (`src/http_client.go:50`): appends the `%v`
rendering of each value to the slice (a `nil` slice is first replaced by an
empty one, which is invisible in the list model). -/
def add (current : List String) (values : List GoVal) : List String :=
  values.foldl (fun cur value => cur ++ [sprintf value]) current

theorem add_eq (current : List String) (values : List GoVal) :
    add current values = current ++ values.map sprintf := by
  induction values generalizing current with
  | nil => simp [add]
  | cons v vs ih =>
      simp only [add, List.foldl_cons, List.map_cons] at *
      rw [ih]
      simp

/-! ## Chainable setters (`src/http_client.go:61-121`)

Each Go setter mutates the receiver in place and returns the same pointer;
in the state-passing model it returns the updated record.  The `Add*`
setters assign into a possibly-`nil` map and therefore may panic. -/

def Client.Timeout (c : Client) (timeout : Int) : Client :=
  { c with timeout := timeout }

def Client.Retry (c : Client) (attempts : Int) (delay : Int) (ruleF : Option RetryRule) : Client :=
  { c with retryAttempts := attempts, retryDelay := delay, retryRuleF := ruleF }

def Client.Param (c : Client) (param : Option PMap) : Client :=
  { c with param := param }

def Client.AddParam (c : Client) (name : String) (value : GoVal) : GoOutcome Client :=
  match c.param with
  | none => .panicked nilMapPanic
  | some m => .done { c with param := some (pmapSet m name (sprintf value)) }

def Client.Query (c : Client) (query : Option QMap) : Client :=
  { c with query := query }

def Client.AddQuery (c : Client) (name : String) (values : List GoVal) : GoOutcome Client :=
  match c.query with
  | none => .panicked nilMapPanic
  | some m => .done { c with query := some (qmapSet m name (add (qmapGet m name) values)) }

def Client.Header (c : Client) (header : Option QMap) : Client :=
  { c with header := header }

def Client.AddHeader (c : Client) (name : String) (values : List GoVal) : GoOutcome Client :=
  match c.header with
  | none => .panicked nilMapPanic
  | some m => .done { c with header := some (qmapSet m name (add (qmapGet m name) values)) }

def Client.Form (c : Client) (form : Option QMap) : Client :=
  { c with form := form }

def Client.AddForm (c : Client) (name : String) (values : List GoVal) : GoOutcome Client :=
  match c.form with
  | none => .panicked nilMapPanic
  | some m => .done { c with form := some (qmapSet m name (add (qmapGet m name) values)) }

def Client.Body (c : Client) (body : List Nat) : Client :=
  { c with body := body }

def Client.Records (c : Client) (records : GoVal) : Client :=
  { c with records := records }

/-! ## Query encoding (`net/url`)

`send` copies the builder's `query` map into a fresh `url.Values` and sets
`urlParsed.RawQuery = query.Encode()`.  `url.Values.Encode` sorts the keys
byte-wise and emits `key=value` pairs joined by `&`, percent-escaping both
components; the per-key value order is preserved.  UTF-8 byte order agrees
with code-point order, so string comparison on the Lean side is the
code-point lexicographic order. -/

/-- UTF-8 encoding of one character, as byte values. -/
def utf8Bytes (c : Char) : List Nat :=
  let n := c.toNat
  if n < 0x80 then [n]
  else if n < 0x800 then
    [0xC0 ||| (n >>> 6), 0x80 ||| (n &&& 0x3F)]
  else if n < 0x10000 then
    [0xE0 ||| (n >>> 12), 0x80 ||| ((n >>> 6) &&& 0x3F), 0x80 ||| (n &&& 0x3F)]
  else
    [0xF0 ||| (n >>> 18), 0x80 ||| ((n >>> 12) &&& 0x3F),
     0x80 ||| ((n >>> 6) &&& 0x3F), 0x80 ||| (n &&& 0x3F)]

/-- Bytes left unescaped by Go's query escaping: alphanumerics and
`-`, `_`, `.`, `~` (space is handled separately). -/
def unreservedByte (b : Nat) : Bool :=
  (65 ≤ b && b ≤ 90) || (97 ≤ b && b ≤ 122) || (48 ≤ b && b ≤ 57) ||
    b == 45 || b == 95 || b == 46 || b == 126

/-- Uppercase hexadecimal digit. -/
def upperhexDigit (n : Nat) : Char :=
  (['0', '1', '2', '3', '4', '5', '6', '7', '8', '9',
    'A', 'B', 'C', 'D', 'E', 'F']).getD n '0'

/-- `url.QueryEscape`: per UTF-8 byte, keep unreserved bytes, turn a space
into `+`, percent-encode everything else. -/
def queryEscape (s : String) : String :=
  String.mk ((s.data.flatMap utf8Bytes).flatMap fun b =>
    if b == 32 then ['+']
    else if unreservedByte b then [Char.ofNat b]
    else ['%', upperhexDigit (b / 16), upperhexDigit (b % 16)])

/-- `sort.Strings`. -/
def sortStrings (l : List String) : List String :=
  List.insertionSort (· ≤ ·) l

namespace Values

/-- `url.Values.Encode`: collect the keys, sort them, then for each key in
order append `escapedKey=escapedValue` for each of its values in order,
preceding every piece but the first with `&` (the `buf.Len() > 0` check). -/
def Encode (v : QMap) : String :=
  let keys := sortStrings (v.map Prod.fst)
  keys.foldl (fun buf k =>
    let keyEscaped := queryEscape k
    (qmapGet v k).foldl (fun buf w =>
      let buf := if buf.length > 0 then buf ++ "&" else buf
      buf ++ keyEscaped ++ "=" ++ queryEscape w) buf) ""

end Values

/-! ## One attempt of `send` (`src/http_client.go:127-199`) -/

/-- The request descriptor handed to the transport: what `send` has built
by line 158 — method, URL with encoded query, accumulated headers, the
(never initialized) form-values container, and the raw body. -/
structure Request where
  method : String
  url : String
  header : QMap
  form : Option QMap
  body : List Nat
deriving DecidableEq, Repr

/-- Outcome of one transport call: `http.Client.Do` fails, or it succeeds
with a status/header pair and the result of fully draining the body
(`ioutil.ReadAll`). -/
inductive DoOutcome where
  | err (e : GoError)
  | ok (statusCode : Int) (header : QMap) (readAll : Except GoError String)
deriving DecidableEq, Repr

/-- The external world of one `Send`: the (deterministic) outcomes of
`url.Parse(c.url)` and `http.NewRequest(...)`, and the outcome of the i-th
transport call. -/
structure Env where
  parse : Except GoError URL
  newReq : Except GoError Unit
  transport : Nat → DoOutcome

/-- Lines 171-190: classify one attempt's transport outcome into the
`(response, responseErr)` pair.  A `Response` is built exactly when `Do`
succeeded and the body was fully drained; the drain error is returned
unwrapped. -/
def classify : DoOutcome → Option Response × Option GoError
  | .err e => (none, some e)
  | .ok _ _ (.error e) => (none, some e)
  | .ok status hdr (.ok bodyStr) =>
      (some { StatusCode := status, Header := hdr, Body := bodyStr }, none)

/-- `url.Values.Add` on a possibly-`nil` map: assignment into a `nil` map
panics. -/
def valuesAddNilable : Option QMap → String → String → GoOutcome (Option QMap)
  | none, _, _ => .panicked nilMapPanic
  | some m, k, v => .done (some (qmapAppend m k v))

/-- Inner loop of lines 154-158: add all values of one form key. -/
def applyFormValues (f : Option QMap) (k : String) : List String → GoOutcome (Option QMap)
  | [] => .done f
  | v :: vs =>
      match valuesAddNilable f k v with
      | .panicked m => .panicked m
      | .done f2 => applyFormValues f2 k vs

/-- Outer loop of lines 154-158: `for name, values := range c.form`. -/
def applyFormPairs (f : Option QMap) : QMap → GoOutcome (Option QMap)
  | [] => .done f
  | (k, vs) :: rest =>
      match applyFormValues f k vs with
      | .panicked m => .panicked m
      | .done f2 => applyFormPairs f2 rest

/-- Lines 148-152 (and lines 135-139 for the query copy): add every value
of every entry of a builder map into a non-`nil` target map. -/
def addAll (m : QMap) (entries : QMap) : QMap :=
  entries.foldl (fun acc p => p.2.foldl (fun acc v => qmapAppend acc p.1 v) acc) m

/-- Outcome of the per-attempt request construction, lines 128-158:
an early `return` with a `(response, error)` pair, a panic, or the built
request descriptor. -/
inductive Setup where
  | earlyReturn (r : Option Response × Option GoError)
  | panicked (msg : String)
  | proceed (req : Request)

/-- Lines 128-158 of `send`: parse the URL (early return on failure,
wrapped "url.Parse"), encode the query into the URL, construct the request
descriptor (early return on failure, wrapped "http.NewRequest"), apply the
headers, then apply the form entries into the request's `nil` form map.
This part does not depend on the remaining-attempts counter and is
recomputed identically on every attempt. -/
def Client.setup (c : Client) (env : Env) : Setup :=
  match env.parse with
  | .error e => .earlyReturn (none, some (wrapErr "url.Parse" e))
  | .ok u =>
    let rawQuery := Values.Encode (addAll [] (c.query.getD []))
    let urlStr := if rawQuery = "" then u else u ++ "?" ++ rawQuery
    match env.newReq with
    | .error e => .earlyReturn (none, some (wrapErr "http.NewRequest" e))
    | .ok _ =>
      let req0 : Request :=
        { method := c.method, url := urlStr, header := [], form := none, body := c.body }
      let req1 : Request := { req0 with header := addAll req0.header (c.header.getD []) }
      match applyFormPairs req1.form (c.form.getD []) with
      | .panicked msg => .panicked msg
      | .done f => .proceed { req1 with form := f }

/-- Observable events of one `Send`: transport calls (with the request
sent), retry-predicate invocations, and sleeps (with their duration). -/
inductive Event where
  | transportCall (req : Request)
  | predicateCall
  | sleep (d : Int)
deriving DecidableEq, Repr

/-- Number of transport calls in a trace. -/
def countTransport (es : List Event) : Nat :=
  es.countP fun e => match e with | .transportCall _ => true | _ => false

/-- Number of retry-predicate invocations in a trace. -/
def countPredicate (es : List Event) : Nat :=
  es.countP fun e => match e with | .predicateCall => true | _ => false

/-- Number of sleeps in a trace. -/
def countSleep (es : List Event) : Nat :=
  es.countP fun e => match e with | .sleep _ => true | _ => false

/-- The recursion of `send` (`src/http_client.go:127-199`), instrumented
with the event trace.  The Go parameter `attempts int` is guarded by
`attempts > 0` and decremented, so the recursion depth is
`attempts.toNat`; the fuel argument carries exactly that.  `i` is the
index of the next transport call. -/
def Client.sendAux (c : Client) (env : Env) :
    Nat → Nat → GoOutcome (Option Response × Option GoError) × List Event
  | 0, i =>
    -- `attempts ≤ 0`: line 192's guard is false, the attempt's pair is final
    match c.setup env with
    | .earlyReturn r => (.done r, [])
    | .panicked msg => (.panicked msg, [])
    | .proceed req => (.done (classify (env.transport i)), [.transportCall req])
  | m + 1, i =>
    match c.setup env with
    | .earlyReturn r => (.done r, [])
    | .panicked msg => (.panicked msg, [])
    | .proceed req =>
      let pr := classify (env.transport i)
      -- line 192: `if attempts > 0`; line 193: predicate call (a `nil`
      -- predicate value panics here); lines 194-195: sleep and recurse
      match c.retryRuleF with
      | none => (.panicked nilFuncPanic, [.transportCall req])
      | some rule =>
        if rule pr.1 pr.2 then
          let rest := c.sendAux env m (i + 1)
          (rest.1, .transportCall req :: .predicateCall :: .sleep c.retryDelay :: rest.2)
        else
          (.done pr, [.transportCall req, .predicateCall])

/-- `send(attempts)` (`src/http_client.go:127`). -/
def Client.send (c : Client) (env : Env) (attempts : Int) :
    GoOutcome (Option Response × Option GoError) × List Event :=
  c.sendAux env attempts.toNat 0

/-- `Send` (`src/http_client.go:123`). -/
def Client.Send (c : Client) (env : Env) :
    GoOutcome (Option Response × Option GoError) × List Event :=
  c.send env c.retryAttempts

theorem sendAux_earlyReturn {c : Client} {env : Env}
    {r : Option Response × Option GoError} (h : c.setup env = .earlyReturn r)
    (fuel i : Nat) : c.sendAux env fuel i = (.done r, []) := by
  cases fuel <;> simp only [Client.sendAux, h]

theorem sendAux_setup_panicked {c : Client} {env : Env} {msg : String}
    (h : c.setup env = .panicked msg) (fuel i : Nat) :
    c.sendAux env fuel i = (.panicked msg, []) := by
  cases fuel <;> simp only [Client.sendAux, h]

theorem sendAux_proceed_zero {c : Client} {env : Env} {req : Request}
    (h : c.setup env = .proceed req) (i : Nat) :
    c.sendAux env 0 i = (.done (classify (env.transport i)), [.transportCall req]) := by
  simp only [Client.sendAux, h]

theorem sendAux_proceed_succ_noRule {c : Client} {env : Env} {req : Request}
    (h : c.setup env = .proceed req) (hr : c.retryRuleF = none) (m i : Nat) :
    c.sendAux env (m + 1) i = (.panicked nilFuncPanic, [.transportCall req]) := by
  simp only [Client.sendAux, h, hr]

theorem sendAux_proceed_succ_rule {c : Client} {env : Env} {req : Request}
    {rule : RetryRule} (h : c.setup env = .proceed req)
    (hr : c.retryRuleF = some rule) (m i : Nat) :
    c.sendAux env (m + 1) i =
      if rule (classify (env.transport i)).1 (classify (env.transport i)).2 then
        ((c.sendAux env m (i + 1)).1,
          .transportCall req :: .predicateCall :: .sleep c.retryDelay ::
            (c.sendAux env m (i + 1)).2)
      else
        (.done (classify (env.transport i)), [.transportCall req, .predicateCall]) := by
  simp only [Client.sendAux, h, hr]

/-! ## Characterizing `setup` -/

/-- Does a builder form map trigger no `url.Values.Add` call at all, i.e.
are all its value slices empty?  (The `form` loop of lines 154-158 panics
on its first added value, because `req.Form` is a `nil` map.) -/
def formSilent (l : QMap) : Bool :=
  l.all fun p => p.2.isEmpty

theorem applyFormValues_none_nil (k : String) :
    applyFormValues none k [] = .done none := rfl

theorem applyFormValues_none_cons (k v : String) (vs : List String) :
    applyFormValues none k (v :: vs) = .panicked nilMapPanic := rfl

theorem applyFormPairs_silent {l : QMap} (h : formSilent l = true)
    (f : Option QMap) : applyFormPairs f l = .done f := by
  induction l with
  | nil => rfl
  | cons p rest ih =>
      obtain ⟨k, vs⟩ := p
      simp only [formSilent, List.all_cons, Bool.and_eq_true] at h
      obtain ⟨h1, h2⟩ := h
      have hvs : vs = [] := List.isEmpty_iff.mp h1
      subst hvs
      simpa only [applyFormPairs, applyFormValues] using ih h2

theorem applyFormPairs_none_panic {l : QMap} (h : formSilent l = false) :
    applyFormPairs none l = .panicked nilMapPanic := by
  induction l with
  | nil => simp [formSilent] at h
  | cons p rest ih =>
      obtain ⟨k, vs⟩ := p
      cases vs with
      | nil =>
          simp only [formSilent, List.all_cons, List.isEmpty_nil, Bool.true_and] at h
          simpa only [applyFormPairs, applyFormValues] using ih h
      | cons v vs =>
          simp [applyFormPairs, applyFormValues, valuesAddNilable]

/-- The request descriptor `send` has assembled once line 158 is passed,
for a builder whose form loop added nothing. -/
def requestOf (c : Client) (u : URL) : Request :=
  let rawQuery := Values.Encode (addAll [] (c.query.getD []))
  { method := c.method
    url := if rawQuery = "" then u else u ++ "?" ++ rawQuery
    header := addAll [] (c.header.getD [])
    form := none
    body := c.body }

theorem setup_parse_error {c : Client} {env : Env} {e : GoError}
    (h : env.parse = .error e) :
    c.setup env = .earlyReturn (none, some (wrapErr "url.Parse" e)) := by
  simp only [Client.setup, h]

theorem setup_newReq_error {c : Client} {env : Env} {u : URL} {e : GoError}
    (hp : env.parse = .ok u) (hn : env.newReq = .error e) :
    c.setup env = .earlyReturn (none, some (wrapErr "http.NewRequest" e)) := by
  simp only [Client.setup, hp, hn]

theorem setup_ok {c : Client} {env : Env} {u : URL}
    (hp : env.parse = .ok u) (hn : env.newReq = .ok ())
    (hf : formSilent (c.form.getD []) = true) :
    c.setup env = .proceed (requestOf c u) := by
  simp only [Client.setup, hp, hn, applyFormPairs_silent hf, requestOf]

theorem setup_form_panic {c : Client} {env : Env} {u : URL}
    (hp : env.parse = .ok u) (hn : env.newReq = .ok ())
    (hf : formSilent (c.form.getD []) = false) :
    c.setup env = .panicked nilMapPanic := by
  simp only [Client.setup, hp, hn, applyFormPairs_none_panic hf]

/-! ## Claim theorems -/

/-- C1: for every builder configured with `retryAttempts = 0` whose attempt
is reached (the URL parses, the request descriptor is constructed, and the
form loop adds nothing), `Send` performs exactly one transport call — and
returns that attempt's classified pair whatever it is — and the retry
predicate is never invoked. -/
theorem send_zeroAttempts_oneTransport_noPredicate
    (c : Client) (env : Env) (u : URL)
    (h0 : c.retryAttempts = 0)
    (hp : env.parse = .ok u) (hn : env.newReq = .ok ())
    (hf : formSilent (c.form.getD []) = true) :
    Client.Send c env =
      (.done (classify (env.transport 0)), [.transportCall (requestOf c u)])
    ∧ countTransport (Client.Send c env).2 = 1
    ∧ countPredicate (Client.Send c env).2 = 0 := by
  have hs : c.setup env = .proceed (requestOf c u) := setup_ok hp hn hf
  have hsend : Client.Send c env =
      (.done (classify (env.transport 0)), [.transportCall (requestOf c u)]) := by
    unfold Client.Send Client.send
    rw [h0]
    exact sendAux_proceed_zero hs 0
  refine ⟨hsend, ?_, ?_⟩ <;> rw [hsend] <;> rfl

def builderW1 : Client := Client.NewRest "GET" "http://example.com"

def envRefused : Env :=
  { parse := .ok "http://example.com"
    newReq := .ok ()
    transport := fun _ => .err "connection refused" }

theorem send_zeroAttempts_oneTransport_noPredicate_witness :
    Client.Send builderW1 envRefused =
      (.done (none, some "connection refused"),
        [.transportCall (requestOf builderW1 "http://example.com")])
    ∧ countTransport (Client.Send builderW1 envRefused).2 = 1
    ∧ countPredicate (Client.Send builderW1 envRefused).2 = 0 := by
  have h := send_zeroAttempts_oneTransport_noPredicate builderW1 envRefused
    "http://example.com" rfl rfl rfl rfl
  exact ⟨h.1.trans rfl, h.2.1, h.2.2⟩

/-- C6: a builder with `retryAttempts > 0` and no retry predicate panics
(a Go `nil`-function call) as soon as an attempt completes and the retry
gate at line 192 is reached: the trace shows the one completed transport
call, then the abort. -/
theorem send_retryWithoutPredicate_panics
    (c : Client) (env : Env) (u : URL)
    (hpos : 0 < c.retryAttempts) (hrule : c.retryRuleF = none)
    (hp : env.parse = .ok u) (hn : env.newReq = .ok ())
    (hf : formSilent (c.form.getD []) = true) :
    Client.Send c env = (.panicked nilFuncPanic, [.transportCall (requestOf c u)]) := by
  have hs : c.setup env = .proceed (requestOf c u) := setup_ok hp hn hf
  obtain ⟨m, hm⟩ : ∃ m, c.retryAttempts.toNat = m + 1 :=
    ⟨c.retryAttempts.toNat - 1, by omega⟩
  unfold Client.Send Client.send
  rw [hm]
  exact sendAux_proceed_succ_noRule hs hrule m 0

/-- With a predicate that always answers `true` and a reachable attempt,
the recursion runs its fuel to exhaustion: `n + 1` transport calls, `n`
predicate calls, `n` sleeps (all of `retryDelay`), and the final value is
the classification of the last transport call. -/
theorem sendAux_alwaysTrue {c : Client} {env : Env} {req : Request}
    {rule : RetryRule} (hs : c.setup env = .proceed req)
    (hr : c.retryRuleF = some rule) (ht : ∀ x y, rule x y = true) :
    ∀ n i : Nat,
      (c.sendAux env n i).1 = .done (classify (env.transport (i + n)))
      ∧ countTransport (c.sendAux env n i).2 = n + 1
      ∧ countPredicate (c.sendAux env n i).2 = n
      ∧ countSleep (c.sendAux env n i).2 = n
      ∧ (c.sendAux env n i).2.count (.sleep c.retryDelay) = n := by
  intro n
  induction n with
  | zero =>
      intro i
      rw [sendAux_proceed_zero hs]
      refine ⟨by simp, ?_, ?_, ?_, ?_⟩ <;> rfl
  | succ m ih =>
      intro i
      rw [sendAux_proceed_succ_rule hs hr, ht, if_pos rfl]
      obtain ⟨ih1, ih2, ih3, ih4, ih5⟩ := ih (i + 1)
      have harith : i + 1 + m = i + (m + 1) := by omega
      simp only [countTransport, countPredicate, countSleep] at ih2 ih3 ih4
      refine ⟨by rw [ih1, harith], ?_, ?_, ?_, ?_⟩ <;>
        simp [countTransport, countPredicate, countSleep, List.countP_cons,
          List.count_cons, ih2, ih3, ih4, ih5]

/-- C2: for every builder with `retryAttempts = k > 0`, an always-true
retry predicate, and a reachable attempt, `Send` performs exactly `k + 1`
transport calls and sleeps exactly `k` times for `retryDelay`, returning
the classified outcome of the final attempt. -/
theorem send_alwaysTrue_kRetries
    (c : Client) (env : Env) (u : URL) (k : Nat) (rule : RetryRule)
    (hk : c.retryAttempts = (k : Int)) (hkpos : 0 < k)
    (hr : c.retryRuleF = some rule) (ht : ∀ x y, rule x y = true)
    (hp : env.parse = .ok u) (hn : env.newReq = .ok ())
    (hf : formSilent (c.form.getD []) = true) :
    (Client.Send c env).1 = .done (classify (env.transport k))
    ∧ countTransport (Client.Send c env).2 = k + 1
    ∧ (Client.Send c env).2.count (.sleep c.retryDelay) = k
    ∧ countSleep (Client.Send c env).2 = k := by
  have hs : c.setup env = .proceed (requestOf c u) := setup_ok hp hn hf
  have h := sendAux_alwaysTrue hs hr ht k 0
  rw [Nat.zero_add] at h
  unfold Client.Send Client.send
  rw [hk]
  have htn : ((k : Int)).toNat = k := by simp
  rw [htn]
  exact ⟨h.1, h.2.1, h.2.2.2.2, h.2.2.2.1⟩

def builderW2 : Client :=
  (Client.NewRest "GET" "http://example.com").Retry 1 10 (some fun _ _ => true)

def envW2 : Env :=
  { parse := .ok "http://example.com"
    newReq := .ok ()
    transport := fun n => if n == 0 then .err "boom" else .ok 200 [] (.ok "ok") }

theorem send_alwaysTrue_kRetries_witness :
    (Client.Send builderW2 envW2).1 =
      .done (some { StatusCode := 200, Header := [], Body := "ok" }, none)
    ∧ countTransport (Client.Send builderW2 envW2).2 = 2
    ∧ (Client.Send builderW2 envW2).2.count (.sleep 10) = 1
    ∧ countSleep (Client.Send builderW2 envW2).2 = 1 := by
  have h := send_alwaysTrue_kRetries builderW2 envW2 "http://example.com" 1
    (fun _ _ => true) rfl (by decide) rfl (fun _ _ => rfl) rfl rfl rfl
  exact ⟨h.1.trans rfl, h.2.1, h.2.2.1, h.2.2.2⟩

def builderW6 : Client := (Client.NewRest "GET" "http://example.com").Retry 2 50 none

theorem send_retryWithoutPredicate_panics_witness :
    Client.Send builderW6 envRefused =
      (.panicked nilFuncPanic,
        [.transportCall (requestOf builderW6 "http://example.com")]) := by
  exact send_retryWithoutPredicate_panics builderW6 envRefused "http://example.com"
    (by decide) rfl rfl rfl rfl

/-- Whenever the per-attempt setup reaches the transport (lines 160-176),
the trace contains at least one transport call, whatever the retry
configuration: any later failure goes through the retry gate rather than
around it. -/
theorem sendAux_reaches_transport {c : Client} {env : Env} {req : Request}
    (hs : c.setup env = .proceed req) :
    ∀ fuel i : Nat, 1 ≤ countTransport (c.sendAux env fuel i).2 := by
  intro fuel i
  cases fuel with
  | zero =>
      rw [sendAux_proceed_zero hs]
      simp [countTransport]
  | succ m =>
      cases hr : c.retryRuleF with
      | none =>
          rw [sendAux_proceed_succ_noRule hs hr]
          simp [countTransport]
      | some rule =>
          rw [sendAux_proceed_succ_rule hs hr]
          by_cases hb : rule (classify (env.transport i)).1 (classify (env.transport i)).2
      <;> simp [hb, countTransport, List.countP_cons]

/-- C3 (amended): a URL-parse failure makes `Send` return a `nil` response
with a non-`nil` error wrapped with the "url.Parse" stage label, with no
transport call, no predicate invocation and no sleep even when
`retryAttempts > 0`.  It is not the only failure mode that bypasses the
retry machinery (`http.NewRequest` failure does too, see the
counterexample); once the URL parses, the request descriptor is built and
the form loop adds nothing, at least one transport call always happens, so
every later failure faces the retry gate instead of bypassing it. -/
theorem send_urlParseFailure_bypassesRetry
    (c : Client) (env envB : Env) (e : GoError) (u : URL)
    (hp : env.parse = .error e)
    (hBp : envB.parse = .ok u) (hBn : envB.newReq = .ok ())
    (hBf : formSilent (c.form.getD []) = true) :
    Client.Send c env = (.done (none, some (wrapErr "url.Parse" e)), [])
    ∧ 1 ≤ countTransport (Client.Send c envB).2 := by
  constructor
  · unfold Client.Send Client.send
    exact sendAux_earlyReturn (setup_parse_error hp) _ _
  · unfold Client.Send Client.send
    exact sendAux_reaches_transport (setup_ok hBp hBn hBf) _ _

def builderW3 : Client :=
  (Client.NewRest "GET" "http://bad url").Retry 3 10 (some fun _ _ => true)

def envW3 : Env :=
  { parse := .error "parse error"
    newReq := .ok ()
    transport := fun _ => .err "unreachable" }

def envW3B : Env :=
  { parse := .ok "http://example.com"
    newReq := .ok ()
    transport := fun _ => .err "refused" }

theorem send_urlParseFailure_bypassesRetry_witness :
    Client.Send builderW3 envW3 = (.done (none, some "url.Parse: parse error"), [])
    ∧ 1 ≤ countTransport (Client.Send builderW3 envW3B).2 := by
  exact send_urlParseFailure_bypassesRetry builderW3 envW3 envW3B
    "parse error" "http://example.com" rfl rfl rfl rfl

def builderW3N : Client :=
  (Client.NewRest "B D" "http://example.com").Retry 1 10 (some fun _ _ => true)

def envW3N : Env :=
  { parse := .ok "http://example.com"
    newReq := .error "net/http: invalid method \"B D\""
    transport := fun _ => .err "unreachable" }

/-- C3 counterexample: a builder whose URL parses fine but whose method
makes `http.NewRequest` fail (line 143).  With retries configured, `Send`
returns a `nil` response and a wrapped non-`nil` error with an empty trace
— no transport call, no predicate invocation, no sleep — so the retry
mechanism is bypassed entirely by a failure that is not a URL-parse
failure.  This refutes the claim's clause that URL-parse failure is the
only such failure mode. -/
theorem send_newRequestFailure_alsoBypassesRetry :
    Client.Send builderW3N envW3N =
      (.done (none, some "http.NewRequest: net/http: invalid method \"B D\""), [])
    ∧ builderW3N.retryAttempts = 1
    ∧ envW3N.parse = .ok "http://example.com" :=
  ⟨rfl, rfl, rfl⟩

/-- Does one attempt's transport call succeed with a full body drain? -/
def attemptFullySucceeded : DoOutcome → Bool
  | .ok _ _ (.ok _) => true
  | _ => false

/-- C4: per attempt, the `(response, error)` pair classified from the
transport outcome is mutually exclusive — a `Response` exists exactly when
the transport call and the full body read both succeed (with a `nil`
error); any failure at either stage yields a `nil` response with a
non-`nil` error; the pair is never both `nil` and never both non-`nil`. -/
theorem response_error_mutually_exclusive :
    ∀ o : DoOutcome,
      ((classify o).1.isSome = true ↔ attemptFullySucceeded o = true)
      ∧ (attemptFullySucceeded o = true → (classify o).2 = none)
      ∧ (attemptFullySucceeded o = false →
          (classify o).1 = none ∧ (classify o).2.isSome = true)
      ∧ ¬((classify o).1 = none ∧ (classify o).2 = none)
      ∧ ¬((classify o).1.isSome = true ∧ (classify o).2.isSome = true) := by
  intro o
  cases o with
  | err e => simp [classify, attemptFullySucceeded]
  | ok s h r => cases r <;> simp [classify, attemptFullySucceeded]

/-- C5 (amended): a builder whose form map holds at least one value makes
`Send` panic with Go's `nil`-map assignment panic, before any transport
call — `req.Form` is never initialized, and `url.Values.Add` assigns into
it — instead of completing normally as a silent no-op. -/
theorem send_nonEmptyForm_panics
    (c : Client) (env : Env) (u : URL)
    (hp : env.parse = .ok u) (hn : env.newReq = .ok ())
    (hf : formSilent (c.form.getD []) = false) :
    Client.Send c env = (.panicked nilMapPanic, []) := by
  unfold Client.Send Client.send
  exact sendAux_setup_panicked (setup_form_panic hp hn hf) _ _

def builderW5 : Client :=
  (Client.NewRest "GET" "http://example.com").Form (some [("a", ["b"])])

theorem send_nonEmptyForm_panics_witness :
    Client.Send builderW5 envRefused = (.panicked nilMapPanic, []) :=
  send_nonEmptyForm_panics builderW5 envRefused "http://example.com" rfl rfl rfl

def envAllOk : Env :=
  { parse := .ok "http://example.com"
    newReq := .ok ()
    transport := fun _ => .ok 200 [] (.ok "ok") }

/-- C5 counterexample: with a one-entry form map and a transport that
would answer 200/"ok", `Send` does not complete normally: it panics on the
`nil` form map with zero transport calls, refuting the claimed silent
no-op behavior. -/
theorem form_apply_not_silent_noop :
    Client.Send builderW5 envAllOk = (.panicked nilMapPanic, [])
    ∧ countTransport (Client.Send builderW5 envAllOk).2 = 0 :=
  ⟨rfl, rfl⟩

/-- C9: every chainable setter rewrites exactly its designated field(s)
and leaves every other field of the builder unchanged, expressed as a
whole-record update; the Go setters mutate the receiver in place and
return the same pointer, which the state-passing model renders as
returning the updated record itself.  The `Add*` setters additionally
panic exactly when their map is `nil`. -/
theorem setters_frame (c : Client) (t a d : Int) (rf : Option RetryRule)
    (pm : Option PMap) (qm hm fm : Option QMap) (name : String) (v : GoVal)
    (vs : List GoVal) (b : List Nat) (rec : GoVal) :
    c.Timeout t = { c with timeout := t }
    ∧ c.Retry a d rf =
        { c with retryAttempts := a, retryDelay := d, retryRuleF := rf }
    ∧ c.Param pm = { c with param := pm }
    ∧ c.Query qm = { c with query := qm }
    ∧ c.Header hm = { c with header := hm }
    ∧ c.Form fm = { c with form := fm }
    ∧ c.Body b = { c with body := b }
    ∧ c.Records rec = { c with records := rec }
    ∧ c.AddParam name v =
        (match c.param with
          | none => .panicked nilMapPanic
          | some m => .done { c with param := some (pmapSet m name (sprintf v)) })
    ∧ c.AddQuery name vs =
        (match c.query with
          | none => .panicked nilMapPanic
          | some m =>
              .done { c with query := some (qmapSet m name (add (qmapGet m name) vs)) })
    ∧ c.AddHeader name vs =
        (match c.header with
          | none => .panicked nilMapPanic
          | some m =>
              .done { c with header := some (qmapSet m name (add (qmapGet m name) vs)) })
    ∧ c.AddForm name vs =
        (match c.form with
          | none => .panicked nilMapPanic
          | some m =>
              .done { c with form := some (qmapSet m name (add (qmapGet m name) vs)) }) := by
  refine ⟨rfl, rfl, rfl, rfl, rfl, rfl, rfl, rfl, ?_, ?_, ?_, ?_⟩ <;> rfl

/-- C10: on a freshly constructed builder every `Add*` setter is total for
any key — including keys never set before — and appends the stringified
values in argument order; but after the corresponding replace-whole-map
setter was called with a `nil` map, the `Add*` call panics by assigning
into a `nil` map. -/
theorem addSetters_fresh_total_nilMap_panics
    (method url name : String) (v : GoVal) (vs vs2 : List GoVal) :
    (Client.NewRest method url).AddQuery name vs =
      .done { Client.NewRest method url with query := some [(name, vs.map sprintf)] }
    ∧ ((Client.NewRest method url).AddQuery name vs).bind (fun c => c.AddQuery name vs2) =
      .done { Client.NewRest method url with
                query := some [(name, (vs ++ vs2).map sprintf)] }
    ∧ (Client.NewRest method url).AddHeader name vs =
      .done { Client.NewRest method url with header := some [(name, vs.map sprintf)] }
    ∧ (Client.NewRest method url).AddForm name vs =
      .done { Client.NewRest method url with form := some [(name, vs.map sprintf)] }
    ∧ (Client.NewRest method url).AddParam name v =
      .done { Client.NewRest method url with param := some [(name, sprintf v)] }
    ∧ ((Client.NewRest method url).Query none).AddQuery name vs = .panicked nilMapPanic
    ∧ ((Client.NewRest method url).Header none).AddHeader name vs = .panicked nilMapPanic
    ∧ ((Client.NewRest method url).Form none).AddForm name vs = .panicked nilMapPanic
    ∧ ((Client.NewRest method url).Param none).AddParam name v = .panicked nilMapPanic := by
  refine ⟨?_, ?_, ?_, ?_, ?_, rfl, rfl, rfl, rfl⟩ <;>
    simp [Client.NewRest, Client.AddQuery, Client.AddHeader, Client.AddForm,
      Client.AddParam, GoOutcome.bind, qmapSet, qmapGet, pmapSet, add_eq]

/-! ## The encoded query string (claim C7) -/

/-- The `key=value` pieces of the encoded query, keys in sorted order,
values in per-key insertion order, both percent-escaped. -/
def encodePieces (v : QMap) : List String :=
  (sortStrings (v.map Prod.fst)).flatMap fun k =>
    (qmapGet v k).map fun w => queryEscape k ++ "=" ++ queryEscape w

/-- Stated from the specification's words, for comparison with
`Values.Encode`: serialize multi-valued keys as repeated `key=value`
pairs, values in the order supplied, keys in sorted order, both
percent-escaped, the pairs joined by `&`. -/
def encodeSpec (v : QMap) : String :=
  String.intercalate "&" (encodePieces v)

/-- One step of `url.Values.Encode`'s string building: append a separator
if the buffer is nonempty (`buf.Len() > 0`), then the piece. -/
def ampStep (buf p : String) : String :=
  (if buf.length > 0 then buf ++ "&" else buf) ++ p

/-- Plain concatenation of a list of strings. -/
def sJoin : List String → String
  | [] => ""
  | p :: rest => p ++ sJoin rest

theorem foldl_congr_fun {α β : Type} (l : List α) (f g : β → α → β)
    (h : ∀ b a, f b a = g b a) (init : β) : l.foldl f init = l.foldl g init := by
  induction l generalizing init with
  | nil => rfl
  | cons a as ih => simp only [List.foldl_cons, h, ih]

theorem foldl_flatMap_eq {α β γ : Type} (g : γ → β → γ) (f : α → List β)
    (l : List α) (init : γ) :
    (l.flatMap f).foldl g init = l.foldl (fun acc a => (f a).foldl g acc) init := by
  induction l generalizing init with
  | nil => rfl
  | cons a as ih => simp only [List.flatMap_cons, List.foldl_append, List.foldl_cons, ih]

theorem Encode_eq_foldl_pieces (v : QMap) :
    Values.Encode v = (encodePieces v).foldl ampStep "" := by
  unfold Values.Encode encodePieces
  rw [foldl_flatMap_eq]
  refine foldl_congr_fun _ _ _ (fun buf k => ?_) ""
  rw [List.foldl_map]
  refine foldl_congr_fun _ _ _ (fun b w => ?_) buf
  simp [ampStep, String.append_assoc]

theorem length_pos_of_ne_empty {s : String} (h : s ≠ "") : 0 < s.length := by
  cases s with
  | mk data =>
      cases data with
      | nil => exact absurd rfl h
      | cons c cs => simp [String.length]

theorem ne_empty_of_length_pos {s : String} (h : 0 < s.length) : s ≠ "" := by
  intro he
  subst he
  simp at h

theorem foldl_ampStep_ne (l : List String) :
    ∀ buf : String, buf ≠ "" →
      l.foldl ampStep buf = buf ++ sJoin (l.map fun p => "&" ++ p) := by
  induction l with
  | nil => intro buf _; simp [sJoin]
  | cons p rest ih =>
      intro buf h
      have hlen : 0 < buf.length := length_pos_of_ne_empty h
      have hlen2 : 0 < (buf ++ "&" ++ p).length := by
        simp only [String.length_append]
        omega
      simp only [List.foldl_cons, ampStep, if_pos hlen, List.map_cons, sJoin]
      rw [ih (buf ++ "&" ++ p) (ne_empty_of_length_pos hlen2)]
      simp [String.append_assoc]

theorem intercalate_go_eq (s : String) :
    ∀ (rest : List String) (acc : String),
      String.intercalate.go acc s rest = acc ++ sJoin (rest.map fun q => s ++ q) := by
  intro rest
  induction rest with
  | nil => intro acc; simp [String.intercalate.go, sJoin]
  | cons a as ih =>
      intro acc
      simp only [String.intercalate.go, List.map_cons, sJoin, ih]
      simp [String.append_assoc]

theorem foldl_ampStep_intercalate (l : List String) (hl : ∀ p ∈ l, p ≠ "") :
    l.foldl ampStep "" = String.intercalate "&" l := by
  cases l with
  | nil => rfl
  | cons p rest =>
      have hp : p ≠ "" := hl p (List.mem_cons_self p rest)
      have h1 : ampStep "" p = p := by simp [ampStep]
      simp only [List.foldl_cons, h1]
      rw [foldl_ampStep_ne rest p hp]
      simp [String.intercalate, intercalate_go_eq]

theorem encodePieces_ne_empty (v : QMap) : ∀ p ∈ encodePieces v, p ≠ "" := by
  intro p hp
  simp only [encodePieces, List.mem_flatMap, List.mem_map] at hp
  obtain ⟨k, _, w, _, hw⟩ := hp
  subst hw
  apply ne_empty_of_length_pos
  simp only [String.length_append]
  have : ("=" : String).length = 1 := rfl
  omega

/-- Extract the resulting query map of a fluent `Add*` chain. -/
def queryOfOutcome : GoOutcome Client → Option (Option QMap)
  | .done c => some c.query
  | .panicked _ => none

/-- C7: the encoded query string serializes multi-valued keys as repeated
`key=value` pairs, preserving per-key insertion order of values, keys in
sorted order, values percent-escaped — `Values.Encode` agrees with the
specification-side description, the key list it iterates is sorted and a
permutation of the map's keys, and adding `"a"` then `"b"` under key
`"x"` produces the map whose encoding is `x=a&x=b`. -/
theorem query_encode_matches_spec :
    (∀ v : QMap, Values.Encode v = encodeSpec v)
    ∧ (∀ v : QMap, (sortStrings (v.map Prod.fst)).Sorted (· ≤ ·)
        ∧ (sortStrings (v.map Prod.fst)).Perm (v.map Prod.fst))
    ∧ queryOfOutcome (((Client.NewRest "GET" "http://example.com").AddQuery "x"
        [.VStr "a"]).bind fun c => c.AddQuery "x" [.VStr "b"]) =
          some (some [("x", ["a", "b"])])
    ∧ Values.Encode [("x", ["a", "b"])] = "x=a&x=b" := by
  refine ⟨fun v => ?_, fun v => ⟨?_, ?_⟩, rfl, rfl⟩
  · rw [Encode_eq_foldl_pieces, encodeSpec]
    exact foldl_ampStep_intercalate _ (encodePieces_ne_empty v)
  · exact List.sorted_insertionSort _ _
  · exact List.perm_insertionSort _ _

/-! ## The duplicate builder type `Rest` (second copy of the source)

The source ships the same functionality twice: the `Rest` type
(`src/http_client.go:215`) duplicates `Client` field for field, and its
`send`/`Send` (`src/http_client.go:323-400`) duplicate lines 123-200.
The `Send` pipeline is embedded again, verbatim, over `Rest`, and proved
to coincide with the `Client` pipeline under the field-for-field
identification `restToClient`. -/

/-- The `Rest` struct (`src/http_client.go:215`). -/
structure Rest where
  method : String
  url : String
  timeout : Int
  retryAttempts : Int
  retryDelay : Int
  retryRuleF : Option RetryRule
  param : Option PMap
  query : Option QMap
  header : Option QMap
  form : Option QMap
  body : List Nat
  records : GoVal

/-- `NewRest` of the duplicate file (`src/http_client.go:236`). -/
def Rest.NewRest (method : String) (url : String) : Rest :=
  { method := method
    url := url
    timeout := 2000000000
    retryAttempts := 0
    retryDelay := 0
    retryRuleF := none
    param := some []
    query := some []
    header := some []
    form := some []
    body := []
    records := .VNil }

/-- Lines 328-358 of the duplicate `send`: identical to `Client.setup`. -/
def Rest.setup (r : Rest) (env : Env) : Setup :=
  match env.parse with
  | .error e => .earlyReturn (none, some (wrapErr "url.Parse" e))
  | .ok u =>
    let rawQuery := Values.Encode (addAll [] (r.query.getD []))
    let urlStr := if rawQuery = "" then u else u ++ "?" ++ rawQuery
    match env.newReq with
    | .error e => .earlyReturn (none, some (wrapErr "http.NewRequest" e))
    | .ok _ =>
      let req0 : Request :=
        { method := r.method, url := urlStr, header := [], form := none, body := r.body }
      let req1 : Request := { req0 with header := addAll req0.header (r.header.getD []) }
      match applyFormPairs req1.form (r.form.getD []) with
      | .panicked msg => .panicked msg
      | .done f => .proceed { req1 with form := f }

/-- The recursion of the duplicate `send` (`src/http_client.go:327-400`),
instrumented exactly like `Client.sendAux`. -/
def Rest.sendAux (r : Rest) (env : Env) :
    Nat → Nat → GoOutcome (Option Response × Option GoError) × List Event
  | 0, i =>
    match r.setup env with
    | .earlyReturn p => (.done p, [])
    | .panicked msg => (.panicked msg, [])
    | .proceed req => (.done (classify (env.transport i)), [.transportCall req])
  | m + 1, i =>
    match r.setup env with
    | .earlyReturn p => (.done p, [])
    | .panicked msg => (.panicked msg, [])
    | .proceed req =>
      let pr := classify (env.transport i)
      match r.retryRuleF with
      | none => (.panicked nilFuncPanic, [.transportCall req])
      | some rule =>
        if rule pr.1 pr.2 then
          let rest := r.sendAux env m (i + 1)
          (rest.1, .transportCall req :: .predicateCall :: .sleep r.retryDelay :: rest.2)
        else
          (.done pr, [.transportCall req, .predicateCall])

/-- `send(attempts)` of the duplicate file (`src/http_client.go:327`). -/
def Rest.send (r : Rest) (env : Env) (attempts : Int) :
    GoOutcome (Option Response × Option GoError) × List Event :=
  r.sendAux env attempts.toNat 0

/-- `Send` of the duplicate file (`src/http_client.go:323`). -/
def Rest.Send (r : Rest) (env : Env) :
    GoOutcome (Option Response × Option GoError) × List Event :=
  r.send env r.retryAttempts

/-- The field-for-field identification of the two builder types. -/
def restToClient (r : Rest) : Client :=
  { method := r.method
    url := r.url
    timeout := r.timeout
    retryAttempts := r.retryAttempts
    retryDelay := r.retryDelay
    retryRuleF := r.retryRuleF
    param := r.param
    query := r.query
    header := r.header
    form := r.form
    body := r.body
    records := r.records }

theorem rest_setup_eq (r : Rest) (env : Env) :
    Rest.setup r env = Client.setup (restToClient r) env := rfl

theorem rest_sendAux_earlyReturn {r : Rest} {env : Env}
    {p : Option Response × Option GoError} (h : r.setup env = .earlyReturn p)
    (fuel i : Nat) : r.sendAux env fuel i = (.done p, []) := by
  cases fuel <;> simp only [Rest.sendAux, h]

theorem rest_sendAux_setup_panicked {r : Rest} {env : Env} {msg : String}
    (h : r.setup env = .panicked msg) (fuel i : Nat) :
    r.sendAux env fuel i = (.panicked msg, []) := by
  cases fuel <;> simp only [Rest.sendAux, h]

theorem rest_sendAux_proceed_zero {r : Rest} {env : Env} {req : Request}
    (h : r.setup env = .proceed req) (i : Nat) :
    r.sendAux env 0 i = (.done (classify (env.transport i)), [.transportCall req]) := by
  simp only [Rest.sendAux, h]

theorem rest_sendAux_proceed_succ_noRule {r : Rest} {env : Env} {req : Request}
    (h : r.setup env = .proceed req) (hr : r.retryRuleF = none) (m i : Nat) :
    r.sendAux env (m + 1) i = (.panicked nilFuncPanic, [.transportCall req]) := by
  simp only [Rest.sendAux, h, hr]

theorem rest_sendAux_proceed_succ_rule {r : Rest} {env : Env} {req : Request}
    {rule : RetryRule} (h : r.setup env = .proceed req)
    (hr : r.retryRuleF = some rule) (m i : Nat) :
    r.sendAux env (m + 1) i =
      if rule (classify (env.transport i)).1 (classify (env.transport i)).2 then
        ((r.sendAux env m (i + 1)).1,
          .transportCall req :: .predicateCall :: .sleep r.retryDelay ::
            (r.sendAux env m (i + 1)).2)
      else
        (.done (classify (env.transport i)), [.transportCall req, .predicateCall]) := by
  simp only [Rest.sendAux, h, hr]

theorem rest_sendAux_eq (r : Rest) (env : Env) :
    ∀ fuel i : Nat, Rest.sendAux r env fuel i = Client.sendAux (restToClient r) env fuel i := by
  intro fuel
  induction fuel with
  | zero =>
      intro i
      cases hs : Client.setup (restToClient r) env with
      | earlyReturn p =>
          rw [rest_sendAux_earlyReturn ((rest_setup_eq r env).trans hs),
            sendAux_earlyReturn hs]
      | panicked msg =>
          rw [rest_sendAux_setup_panicked ((rest_setup_eq r env).trans hs),
            sendAux_setup_panicked hs]
      | proceed req =>
          rw [rest_sendAux_proceed_zero ((rest_setup_eq r env).trans hs),
            sendAux_proceed_zero hs]
  | succ m ih =>
      intro i
      cases hs : Client.setup (restToClient r) env with
      | earlyReturn p =>
          rw [rest_sendAux_earlyReturn ((rest_setup_eq r env).trans hs),
            sendAux_earlyReturn hs]
      | panicked msg =>
          rw [rest_sendAux_setup_panicked ((rest_setup_eq r env).trans hs),
            sendAux_setup_panicked hs]
      | proceed req =>
          cases hr : r.retryRuleF with
          | none =>
              have hrc : (restToClient r).retryRuleF = none := hr
              rw [rest_sendAux_proceed_succ_noRule ((rest_setup_eq r env).trans hs) hr,
                sendAux_proceed_succ_noRule hs hrc]
          | some rule =>
              have hrc : (restToClient r).retryRuleF = some rule := hr
              rw [rest_sendAux_proceed_succ_rule ((rest_setup_eq r env).trans hs) hr,
                sendAux_proceed_succ_rule hs hrc]
              by_cases hb : rule (classify (env.transport i)).1 (classify (env.transport i)).2
              · simp only [if_pos hb, ih (i + 1)]
                rfl
              · simp only [if_neg hb]

/-- C8: the two builder types of the source, `Client` and `Rest`, are
behaviorally identical — for every configuration (under the
field-for-field identification `restToClient`) and every environment,
their `Send` operations return the same `(response, error)` outcome and
produce the same trace of transport calls, predicate invocations, and
sleeps. -/
theorem client_rest_behaviorally_identical :
    ∀ (r : Rest) (env : Env), Rest.Send r env = Client.Send (restToClient r) env := by
  intro r env
  unfold Rest.Send Rest.send Client.Send Client.send
  exact rest_sendAux_eq r env r.retryAttempts.toNat 0

end Utils
